import Mathlib

/-
Verification of the ptssl concurrent module execution engine
(src/ptssl/ptssl.py) and its ct check module (src/ptssl/modules/ct.py).

Shallow embedding conventions:
- A testssl JSON record is a TesterRecord (fields id, severity, finding).
- Side effects (ptprint lines, ptjsonlib.add_vulnerability,
  ptjsonlib.set_status, ptjsonlib.end_error) are recorded as an Event trace.
- Python exceptions are PyExn: exc covers any Exception subclass raised by
  module code, fnf is FileNotFoundError (a subclass of Exception), sysExit is
  SystemExit (a BaseException only, raised by ptjsonlib.end_error, the fatal
  input path; it is not caught by except-Exception handlers).
- The worker pool ptlibs.threads.ptthreads is an external library, not part
  of this repository; where its behaviour decides a claim it is modelled
  from the spec (see the doc comments of orchestrator_run and PoolStep).
-/

namespace Ptssl

/-- One record of the testssl JSON result list: an identifier, a severity
classification and free-text detail. -/
structure TesterRecord where
  id : String
  severity : String
  finding : String
deriving DecidableEq

/-- Observable effects of a run: a printed line with a ptprint level tag, an
aggregator finding (ptjsonlib.add_vulnerability), the terminal status
(ptjsonlib.set_status) and the fatal report (ptjsonlib.end_error). -/
inductive Event where
  | printLine (level : String) (text : String)
  | addVuln (code : String)
  | setStatus (value : String)
  | fatalReport (msg : String)
deriving DecidableEq

/-- Python exceptions as they matter to the handlers in run_single_module. -/
inductive PyExn where
  | exc (msg : String)
  | fnf (msg : String)
  | sysExit
deriving DecidableEq

def isAddVuln : Event → Bool
  | .addVuln _ => true
  | _ => false

def isPrintLevel (lvl : String) : Event → Bool
  | .printLine l _ => l == lvl
  | _ => false

def isSetStatus : Event → Bool
  | .setStatus _ => true
  | _ => false

def isFatalReport : Event → Bool
  | .fatalReport _ => true
  | _ => false

/- ===================== ct module (src/ptssl/modules/ct.py) ============= -/

/-- CT.CIPHER_SEC_LEN -/
def CIPHER_SEC_LEN : Nat := 8

/-- CT.ERROR_NUM -/
def ERROR_NUM : Int := -1

/-- The __TESTLABEL__ attribute of the ct module. -/
def ct_TESTLABEL : String := "Testing for supported ciphers:"

/-- Loop body of CT._find_section_ct: walks the record list with a counter,
returns the counter at the first record whose id equals cipherlist_NULL. -/
def find_section_go (n : Nat) : List TesterRecord → Int
  | [] => ERROR_NUM
  | item :: rest =>
      if item.id = "cipherlist_NULL" then (n : Int) else find_section_go (n + 1) rest

/-- CT._find_section_ct: index of the first record with id cipherlist_NULL,
or ERROR_NUM (-1) when absent. -/
def find_section_ct (result : List TesterRecord) : Int :=
  find_section_go 0 result

/-- Python string sanitisation used for the finding identifier: keep the
alphanumeric characters of the id and uppercase them. -/
def sanitizeId (s : String) : String :=
  (String.mk (s.data.filter Char.isAlphanum)).toUpper

/-- The text of a per-record line: the id left-padded to width 23, two
spaces, then the finding text. -/
def ctLine (item : TesterRecord) : String :=
  item.id ++ String.mk (List.replicate (23 - item.id.length) ' ') ++ "  " ++ item.finding

/-- One iteration of the loop body in CT._print_test_result: severity OK
prints an OK line; severity INFO prints a WARNING line and appends a
finding; any other severity prints a VULN line and appends a finding. -/
def process_item (item : TesterRecord) : List Event :=
  if item.severity = "OK" then
    [.printLine "OK" (ctLine item)]
  else if item.severity = "INFO" then
    [.printLine "WARNING" (ctLine item),
     .addVuln ("PTV-WEB-MISC-" ++ sanitizeId item.id)]
  else
    [.printLine "VULN" (ctLine item),
     .addVuln ("PTV-WEB-MISC-" ++ sanitizeId item.id)]

/-- CT._print_test_result: when no cipherlist_NULL record exists, call
ptjsonlib.end_error (one fatal report, then SystemExit); otherwise process
the slice result[idSection : idSection + CIPHER_SEC_LEN]. Returns the
emitted events and the escaping exception, if any. -/
def print_test_result (result : List TesterRecord) : List Event × Option PyExn :=
  let idSection := find_section_ct result
  if idSection = ERROR_NUM then
    ([.fatalReport "testssl could not provide cipher list section"], some .sysExit)
  else
    (((result.drop idSection.toNat).take CIPHER_SEC_LEN).flatMap process_item, none)

/-- Events and outcome of the whole ct module run() entry point: print the
test label at TITLE level, then CT._print_test_result. -/
def ct_module_events (result : List TesterRecord) : List Event :=
  .printLine "TITLE" ct_TESTLABEL :: (print_test_result result).1

/-- The exception (if any) escaping the ct module run() entry point. -/
def ct_module_exn (result : List TesterRecord) : Option PyExn :=
  (print_test_result result).2

/- ===================== orchestrator (src/ptssl/ptssl.py) =============== -/

/-- Behaviour of one invocation of a loaded module run() entry point: the
events it emits (prints go to the thread-local buffer which is flushed as
one block; aggregator calls mutate the shared ptjsonlib directly) and the
exception escaping it, if any. -/
structure RunBehavior where
  events : List Event
  exn : Option PyExn
deriving DecidableEq

/-- Outcome of the serialized module-load step of run_single_module:
either the module object (with or without a callable run attribute and, when
it has one, the behaviour of calling it), or the exception the import
machinery raised. -/
inductive LoadOutcome where
  | ok (hasRun : Bool) (behavior : RunBehavior)
  | raises (e : PyExn)
deriving DecidableEq

/-- PtSSL.run_single_module: load the module under the lock; without a
callable run attribute print a WARNING; otherwise call run() inside
try/except-Exception (the handler prints the exception into the buffer),
then flush the buffer. The outer handlers turn FileNotFoundError into a
not-found ERROR line and any other Exception into an error-running ERROR
line. SystemExit is a BaseException, so no handler catches it and it
escapes the method (second component). The source wraps the module name in
single quotes inside the messages; the quotes are elided here. -/
def run_single_module (load : LoadOutcome) (name : String) :
    List Event × Option PyExn :=
  match load with
  | .raises (.fnf _) =>
      ([.printLine "ERROR" ("Module " ++ name ++ " not found")], none)
  | .raises (.exc m) =>
      ([.printLine "ERROR" ("Error running module " ++ name ++ ": " ++ m)], none)
  | .raises .sysExit => ([], some .sysExit)
  | .ok false _ =>
      ([.printLine "WARNING" ("Module " ++ name ++ " does not have run function")], none)
  | .ok true b =>
      match b.exn with
      | none => (b.events, none)
      | some (.exc m) => (b.events ++ [.printLine "TEXT" m], none)
      | some (.fnf m) => (b.events ++ [.printLine "TEXT" m], none)
      | some .sysExit => (b.events, some .sysExit)

/-- Events a pool worker contributes to the consolidated output: the events
of run_single_module. An escaping SystemExit terminates only that worker
thread (modelled from the spec: the pool is ptlibs.threads.ptthreads, an
external collaborator; a BaseException in a non-main thread ends the thread
without aborting the process). -/
def worker (env : String → LoadOutcome) (name : String) : List Event :=
  (run_single_module (env name) name).1

/-- Modelled from the spec: ptlibs.threads.ptthreads.threads (not in src/)
fans each element of the task list out to a bounded pool and blocks until
all workers finish; completion order is scheduler-dependent, so the trace is
sequentialized in submission order here. PtSSL.run then calls
ptjsonlib.set_status with value finished and prints the consolidated
report. -/
def orchestrator_run (env : String → LoadOutcome) (tasks : List String) :
    List Event :=
  tasks.flatMap (worker env) ++ [.setStatus "finished"]

/-- The modules directory of the repository holds a single eligible module
file, ct.py (names starting with an underscore are excluded). -/
def availableModules : List String := ["ct"]

/-- PtSSL.run line 61: tests = self.args.tests or _get_all_available_modules().
A Python or: None and the empty list both fall back to the directory scan.
No deduplication is applied to the list. -/
def scheduled_tasks (argsTests : Option (List String)) : List String :=
  match argsTests with
  | some ts => if ts = [] then availableModules else ts
  | none => availableModules

/-- The load environment of the shipped repository: the registry resolves
ct to the ct module (which has a callable run with the behaviour embedded
above, for the given testssl result list) and any other name to a
FileNotFoundError from exec_module. -/
def ct_env (result : List TesterRecord) (name : String) : LoadOutcome :=
  if name = "ct" then
    .ok true ⟨ct_module_events result, ct_module_exn result⟩
  else
    .raises (.fnf ("no module file " ++ name))

/- ===================== help / describe (get_help) ====================== -/

/-- A module object as the help generator sees it: its optional
__TESTLABEL__ attribute. -/
structure PyModule where
  testlabel : Option String
deriving DecidableEq

/-- get_help._get_available_modules_help line 223:
getattr(mod, __TESTLABEL__ attribute, default), the default being
"Test for " followed by the uppercased module name. -/
def describe (mod : PyModule) (name : String) : String :=
  mod.testlabel.getD ("Test for " ++ name.toUpper)

/- ===================== worker pool (spec model) ======================== -/

/-- argparse default of the threads option (ptssl.py line 250). -/
def threads_default : Nat := 10

/-- State of the worker pool: tasks not yet started, tasks whose run body is
executing, and tasks that reached a terminal state. -/
structure PoolState where
  pending : List String
  running : List String
  done : List String
deriving DecidableEq

/-- Modelled from the spec: the worker pool lives in
ptlibs.threads.ptthreads, outside this repository. Per the concurrency
model, up to the configured bound B of module executions run concurrently
and additional queued tasks wait for a free slot: a pending task may start
only when fewer than B tasks are running, and a running task may finish. -/
inductive PoolStep (B : Nat) : PoolState → PoolState → Prop where
  | start (s : PoolState) (n : String) (p : List String) :
      s.pending = n :: p → s.running.length < B →
      PoolStep B s ⟨p, n :: s.running, s.done⟩
  | finish (s : PoolState) (n : String) (l1 l2 : List String) :
      s.running = l1 ++ n :: l2 →
      PoolStep B s ⟨s.pending, l1 ++ l2, n :: s.done⟩

/-- Reachability of pool states from an initial state under bound B. -/
inductive PoolReach (B : Nat) (init : PoolState) : PoolState → Prop where
  | refl : PoolReach B init init
  | step {s t : PoolState} : PoolReach B init s → PoolStep B s t → PoolReach B init t

/-- The pool before any worker starts: all tasks pending. -/
def initPool (tasks : List String) : PoolState := ⟨tasks, [], []⟩

/- ===================== helper lemmas =================================== -/

theorem find_section_go_of_not_mem (l : List TesterRecord) (n : Nat)
    (h : ∀ x ∈ l, x.id ≠ "cipherlist_NULL") : find_section_go n l = ERROR_NUM := by
  induction l generalizing n with
  | nil => rfl
  | cons a t ih =>
      have ha : a.id ≠ "cipherlist_NULL" := h a (List.mem_cons_self a t)
      simp only [find_section_go, if_neg ha]
      exact ih (n + 1) fun x hx => h x (List.mem_cons_of_mem a hx)

theorem find_section_go_of_mem (l : List TesterRecord) (n : Nat)
    (h : ∃ x ∈ l, x.id = "cipherlist_NULL") :
    ∃ k : Nat, find_section_go n l = ((n + k : Nat) : Int) ∧
      ∃ hk : k < l.length, (l.get ⟨k, hk⟩).id = "cipherlist_NULL" ∧
        ∀ y ∈ l.take k, y.id ≠ "cipherlist_NULL" := by
  induction l generalizing n with
  | nil => simp at h
  | cons a t ih =>
      by_cases ha : a.id = "cipherlist_NULL"
      · refine ⟨0, ?_, ?_⟩
        · simp [find_section_go, ha]
        · exact ⟨Nat.succ_pos _, by simpa using ha, by simp⟩
      · have ht : ∃ x ∈ t, x.id = "cipherlist_NULL" := by
          rcases h with ⟨x, hx, hxid⟩
          rcases List.mem_cons.mp hx with rfl | hxt
          · exact absurd hxid ha
          · exact ⟨x, hxt, hxid⟩
        rcases ih (n + 1) ht with ⟨k, hval, hk, hid, hbefore⟩
        refine ⟨k + 1, ?_, ?_⟩
        · simp only [find_section_go, if_neg ha]
          rw [hval]
          congr 1
          omega
        · refine ⟨by simpa using Nat.succ_lt_succ hk, by simpa using hid, ?_⟩
          intro y hy
          rcases List.mem_cons.mp (by simpa using hy) with rfl | hyt
          · exact ha
          · exact hbefore y hyt

/-- severity equals OK -/
def sevOK (x : TesterRecord) : Bool := x.severity == "OK"

/-- severity equals INFO -/
def sevINFO (x : TesterRecord) : Bool := x.severity == "INFO"

/-- severity neither OK nor INFO (the vulnerable branch of the loop) -/
def sevVULN (x : TesterRecord) : Bool := x.severity != "OK" && x.severity != "INFO"

/-- The slice of the result list the ct module processes when the section
is found: at most CIPHER_SEC_LEN records starting at the cipherlist_NULL
record. -/
def ct_section (result : List TesterRecord) : List TesterRecord :=
  (result.drop (find_section_ct result).toNat).take CIPHER_SEC_LEN

theorem print_test_result_missing (r : List TesterRecord)
    (h : ∀ x ∈ r, x.id ≠ "cipherlist_NULL") :
    print_test_result r =
      ([.fatalReport "testssl could not provide cipher list section"], some .sysExit) := by
  have hfs : find_section_ct r = ERROR_NUM := find_section_go_of_not_mem r 0 h
  simp [print_test_result, hfs]

theorem find_section_ct_nonneg (r : List TesterRecord)
    (h : ∃ x ∈ r, x.id = "cipherlist_NULL") : 0 ≤ find_section_ct r := by
  rcases find_section_go_of_mem r 0 h with ⟨k, hval, _⟩
  unfold find_section_ct
  rw [hval]
  exact Int.ofNat_nonneg _

theorem print_test_result_found (r : List TesterRecord)
    (h : ∃ x ∈ r, x.id = "cipherlist_NULL") :
    print_test_result r = ((ct_section r).flatMap process_item, none) := by
  have hnn : 0 ≤ find_section_ct r := find_section_ct_nonneg r h
  have hne : find_section_ct r ≠ ERROR_NUM := by
    intro he
    rw [he] at hnn
    exact absurd hnn (by decide)
  simp [print_test_result, ct_section, hne]

theorem process_item_counts (l : List TesterRecord) :
    ((l.flatMap process_item).filter isAddVuln).length
        = (l.filter sevINFO).length + (l.filter sevVULN).length
  ∧ ((l.flatMap process_item).filter (isPrintLevel "WARNING")).length
        = (l.filter sevINFO).length
  ∧ ((l.flatMap process_item).filter (isPrintLevel "VULN")).length
        = (l.filter sevVULN).length
  ∧ ((l.flatMap process_item).filter (isPrintLevel "OK")).length
        = (l.filter sevOK).length
  ∧ (l.filter sevOK).length + (l.filter sevINFO).length + (l.filter sevVULN).length
        = l.length := by
  induction l with
  | nil => simp
  | cons a t ih =>
      obtain ⟨i1, i2, i3, i4, i5⟩ := ih
      by_cases hOK : a.severity = "OK"
      · simp only [List.flatMap_cons, List.filter_append, List.length_append,
          List.filter_cons, process_item, if_pos hOK, sevOK, sevINFO, sevVULN, hOK,
          isAddVuln, isPrintLevel]
        simp_all [isAddVuln, isPrintLevel]
        try omega
      · by_cases hINFO : a.severity = "INFO"
        · simp only [List.flatMap_cons, List.filter_append, List.length_append,
            List.filter_cons, process_item, if_neg hOK, if_pos hINFO,
            sevOK, sevINFO, sevVULN, hINFO, isAddVuln, isPrintLevel]
          simp_all [isAddVuln, isPrintLevel]
          try omega
        · simp only [List.flatMap_cons, List.filter_append, List.length_append,
            List.filter_cons, process_item, if_neg hOK, if_neg hINFO,
            sevOK, sevINFO, sevVULN, isAddVuln, isPrintLevel]
          simp_all [isAddVuln, isPrintLevel]
          try omega

theorem find_section_go_eq (n : Nat) (r : List TesterRecord) :
    find_section_go n r =
      if r.any (fun x => x.id == "cipherlist_NULL")
      then ((n + r.findIdx fun x => x.id == "cipherlist_NULL" : Nat) : Int)
      else ERROR_NUM := by
  induction r generalizing n with
  | nil => simp [find_section_go]
  | cons a t ih =>
      by_cases ha : a.id = "cipherlist_NULL"
      · simp [find_section_go, ha, List.findIdx_cons]
      · have hbeq : (a.id == "cipherlist_NULL") = false := by
          simpa using ha
        simp only [find_section_go, if_neg ha, List.any_cons, List.findIdx_cons,
          hbeq, Bool.false_or, cond_false]
        rw [ih (n + 1)]
        by_cases hany : t.any (fun x => x.id == "cipherlist_NULL")
        · simp only [hany, if_pos]
          push_cast
          omega
        · simp [hany]

/-- Extracts the identifier of an aggregator finding event. -/
def vulnCode : Event → Option String
  | .addVuln c => some c
  | _ => none

theorem process_item_vulnCodes (item : TesterRecord) :
    (process_item item).filterMap vulnCode =
      if sevOK item then [] else ["PTV-WEB-MISC-" ++ sanitizeId item.id] := by
  unfold process_item sevOK
  by_cases hOK : item.severity = "OK"
  · simp [hOK, vulnCode]
  · by_cases hINFO : item.severity = "INFO"
    · simp [hOK, hINFO, vulnCode]
    · simp [hOK, hINFO, vulnCode]

theorem flatMap_vulnCodes (l : List TesterRecord) :
    (l.flatMap process_item).filterMap vulnCode =
      (l.filter fun x => !(sevOK x)).map
        (fun item => "PTV-WEB-MISC-" ++ sanitizeId item.id) := by
  induction l with
  | nil => simp
  | cons a t ih =>
      rw [List.flatMap_cons, List.filterMap_append, process_item_vulnCodes,
        List.filter_cons, ih]
      by_cases hOK : sevOK a
      · simp [hOK]
      · simp [hOK]

theorem ct_exn_cases (r : List TesterRecord) :
    ct_module_exn r = none ∨ ct_module_exn r = some PyExn.sysExit := by
  unfold ct_module_exn print_test_result
  dsimp only
  split
  · exact Or.inr rfl
  · exact Or.inl rfl

theorem worker_ct (r : List TesterRecord) :
    worker (ct_env r) "ct" = ct_module_events r := by
  unfold worker ct_env
  rw [if_pos rfl]
  rcases ct_exn_cases r with h | h <;>
    simp [run_single_module, h]

theorem worker_not_ct (r : List TesterRecord) (name : String) (h : name ≠ "ct") :
    worker (ct_env r) name =
      [.printLine "ERROR" ("Module " ++ name ++ " not found")] := by
  unfold worker ct_env
  rw [if_neg h]
  rfl

theorem orchestrator_run_ct (r : List TesterRecord) :
    orchestrator_run (ct_env r) ["ct"] =
      ct_module_events r ++ [.setStatus "finished"] := by
  unfold orchestrator_run
  rw [List.flatMap_cons, List.flatMap_nil, List.append_nil, worker_ct]

/- ===================== the claims ====================================== -/

/-- Claim C9: CT._find_section_ct returns the index of the first record
whose id field equals cipherlist_NULL when such a record exists, and -1
when no record in the sequence has that identifier. -/
theorem claim_C9 (r : List TesterRecord) :
    find_section_ct r =
      if r.any (fun x => x.id == "cipherlist_NULL")
      then ((r.findIdx fun x => x.id == "cipherlist_NULL" : Nat) : Int)
      else -1 := by
  have h := find_section_go_eq 0 r
  unfold find_section_ct
  rw [h]
  rcases Bool.eq_false_or_eq_true (r.any fun x => x.id == "cipherlist_NULL") with
    hany | hany <;> simp [hany, ERROR_NUM]

/-- Claim C5: with task list consisting of ct alone and an input lacking
any cipherlist_NULL record, the run emits exactly one fatal-input report
through the aggregator fatal path, appends zero findings, and still runs to
completion (the trace is finite and ends with the final status event). -/
theorem claim_C5 (r : List TesterRecord)
    (h : r.any (fun x => x.id == "cipherlist_NULL") = false) :
    ((orchestrator_run (ct_env r) ["ct"]).filter isFatalReport).length = 1 ∧
    ((orchestrator_run (ct_env r) ["ct"]).filter isAddVuln).length = 0 ∧
    (orchestrator_run (ct_env r) ["ct"]).getLast? = some (.setStatus "finished") := by
  have hall : ∀ x ∈ r, x.id ≠ "cipherlist_NULL" := by
    intro x hx
    have := List.any_eq_false.mp h x hx
    simpa using this
  have hmiss := print_test_result_missing r hall
  rw [orchestrator_run_ct]
  unfold ct_module_events
  rw [hmiss]
  refine ⟨by decide, by decide, by simp⟩

/-- Sample input: a single OK record that is not the cipher section head. -/
def rNoSection : List TesterRecord := [⟨"pre_128cipher", "OK", "no"⟩]

theorem claim_C5_witness :
    ((orchestrator_run (ct_env rNoSection) ["ct"]).filter isFatalReport).length = 1 ∧
    ((orchestrator_run (ct_env rNoSection) ["ct"]).filter isAddVuln).length = 0 ∧
    (orchestrator_run (ct_env rNoSection) ["ct"]).getLast? =
      some (.setStatus "finished") :=
  claim_C5 rNoSection (by decide)

/-- Claim C10: every finding identifier the ct module appends is exactly
PTV-WEB-MISC- followed by the triggering record id stripped of
non-alphanumeric characters and uppercased (one finding per non-OK record
of the section, in order); the processed section holds at most
CIPHER_SEC_LEN records starting at the cipherlist_NULL record; and the
module returns without error even when fewer than CIPHER_SEC_LEN records
follow. -/
theorem claim_C10 (r : List TesterRecord)
    (hmem : r.any (fun x => x.id == "cipherlist_NULL") = true) :
    (print_test_result r).1.filterMap vulnCode =
      ((ct_section r).filter fun x => !(sevOK x)).map
        (fun item => "PTV-WEB-MISC-" ++ sanitizeId item.id) ∧
    (ct_section r).length ≤ CIPHER_SEC_LEN ∧
    (print_test_result r).2 = none := by
  have hex : ∃ x ∈ r, x.id = "cipherlist_NULL" := by
    rcases List.any_eq_true.mp hmem with ⟨x, hx, hid⟩
    exact ⟨x, hx, by simpa using hid⟩
  have hfound := print_test_result_found r hex
  refine ⟨?_, ?_, ?_⟩
  · rw [hfound]
    exact flatMap_vulnCodes _
  · unfold ct_section
    exact List.length_take_le _ _
  · rw [hfound]

/-- Sample input: the cipher section head followed by a single weak-cipher
record; fewer than CIPHER_SEC_LEN records follow the section head. -/
def rShort : List TesterRecord :=
  [⟨"service", "INFO", "HTTP"⟩,
   ⟨"cipherlist_NULL", "OK", "not offered"⟩,
   ⟨"cipherlist_aNULL", "VULN", "offered"⟩]

theorem claim_C10_witness :
    (print_test_result rShort).1.filterMap vulnCode =
      ((ct_section rShort).filter fun x => !(sevOK x)).map
        (fun item => "PTV-WEB-MISC-" ++ sanitizeId item.id) ∧
    (ct_section rShort).length ≤ CIPHER_SEC_LEN ∧
    (print_test_result rShort).2 = none :=
  claim_C10 rShort (by decide)

theorem run_trace_last (env : String → LoadOutcome) (tasks : List String) :
    (orchestrator_run env tasks).getLast? = some (.setStatus "finished") := by
  unfold orchestrator_run
  rw [List.getLast?_concat]

theorem process_item_levels (item : TesterRecord) (e : Event)
    (h : e ∈ process_item item) :
    isSetStatus e = false ∧ isPrintLevel "TITLE" e = false := by
  unfold process_item at h
  by_cases h1 : item.severity = "OK"
  · simp only [if_pos h1, List.mem_singleton] at h
    subst h
    exact ⟨rfl, rfl⟩
  · by_cases h2 : item.severity = "INFO"
    · simp only [if_neg h1, if_pos h2, List.mem_cons, List.not_mem_nil, or_false] at h
      rcases h with h | h <;> subst h <;> exact ⟨rfl, rfl⟩
    · simp only [if_neg h1, if_neg h2, List.mem_cons, List.not_mem_nil, or_false] at h
      rcases h with h | h <;> subst h <;> exact ⟨rfl, rfl⟩

theorem ptr_filter_nil (r : List TesterRecord) (p : Event → Bool)
    (hproc : ∀ item e, e ∈ process_item item → p e = false)
    (hfatal : ∀ m, p (.fatalReport m) = false) :
    (print_test_result r).1.filter p = [] := by
  unfold print_test_result
  dsimp only
  split
  · simp [hfatal]
  · apply List.filter_eq_nil_iff.mpr
    intro e he
    rcases List.mem_flatMap.mp he with ⟨item, _, hmem⟩
    simp [hproc item e hmem]

theorem ptr_no_setStatus (r : List TesterRecord) :
    (print_test_result r).1.filter isSetStatus = [] :=
  ptr_filter_nil r isSetStatus
    (fun item e h => (process_item_levels item e h).1) (fun _ => rfl)

theorem ptr_no_title (r : List TesterRecord) :
    (print_test_result r).1.filter (isPrintLevel "TITLE") = [] :=
  ptr_filter_nil r (isPrintLevel "TITLE")
    (fun item e h => (process_item_levels item e h).2) (fun _ => rfl)

theorem worker_no_setStatus (r : List TesterRecord) (name : String) :
    (worker (ct_env r) name).filter isSetStatus = [] := by
  by_cases h : name = "ct"
  · subst h
    rw [worker_ct]
    unfold ct_module_events
    rw [List.filter_cons]
    simp [isSetStatus, ptr_no_setStatus]
  · rw [worker_not_ct r name h]
    rfl

theorem tasks_no_setStatus (r : List TesterRecord) (tasks : List String) :
    (tasks.flatMap (worker (ct_env r))).filter isSetStatus = [] := by
  induction tasks with
  | nil => rfl
  | cons a t ih =>
      rw [List.flatMap_cons, List.filter_append, worker_no_setStatus, ih]
      rfl

theorem worker_title_count (r : List TesterRecord) (name : String) :
    ((worker (ct_env r) name).filter (isPrintLevel "TITLE")).length
      = if name = "ct" then 1 else 0 := by
  by_cases h : name = "ct"
  · subst h
    rw [worker_ct]
    unfold ct_module_events
    rw [List.filter_cons]
    simp [isPrintLevel, ptr_no_title]
  · rw [worker_not_ct r name h]
    simp [h, isPrintLevel]

theorem tasks_title_count (r : List TesterRecord) (ts : List String) :
    ((ts.flatMap (worker (ct_env r))).filter (isPrintLevel "TITLE")).length
      = ts.count "ct" := by
  induction ts with
  | nil => rfl
  | cons a t ih =>
      rw [List.flatMap_cons, List.filter_append, List.length_append, ih,
        worker_title_count, List.count_cons]
      by_cases h : a = "ct"
      · simp [h]
        omega
      · simp [h]

/-- Claim C1: with task list consisting of ct alone and an input whose
cipher section (the CIPHER_SEC_LEN records starting at the cipherlist_NULL
record) is full and holds exactly one INFO record and exactly one record of
severity other than OK and INFO, the run appends exactly two findings and
prints exactly one warning-level line and one vulnerability-level line in
addition to the six OK lines. -/
theorem claim_C1 (r : List TesterRecord)
    (hmem : r.any (fun x => x.id == "cipherlist_NULL") = true)
    (hlen : (ct_section r).length = CIPHER_SEC_LEN)
    (hinfo : ((ct_section r).filter sevINFO).length = 1)
    (hvuln : ((ct_section r).filter sevVULN).length = 1) :
    ((orchestrator_run (ct_env r) ["ct"]).filter isAddVuln).length = 2 ∧
    ((orchestrator_run (ct_env r) ["ct"]).filter (isPrintLevel "WARNING")).length = 1 ∧
    ((orchestrator_run (ct_env r) ["ct"]).filter (isPrintLevel "VULN")).length = 1 ∧
    ((orchestrator_run (ct_env r) ["ct"]).filter (isPrintLevel "OK")).length = 6 := by
  have hex : ∃ x ∈ r, x.id = "cipherlist_NULL" := by
    rcases List.any_eq_true.mp hmem with ⟨x, hx, hid⟩
    exact ⟨x, hx, by simpa using hid⟩
  have hfound := print_test_result_found r hex
  obtain ⟨p1, p2, p3, p4, p5⟩ := process_item_counts (ct_section r)
  have htrace : orchestrator_run (ct_env r) ["ct"] =
      Event.printLine "TITLE" ct_TESTLABEL ::
        ((ct_section r).flatMap process_item ++ [Event.setStatus "finished"]) := by
    rw [orchestrator_run_ct]
    unfold ct_module_events
    rw [hfound]
    rfl
  simp only [CIPHER_SEC_LEN] at hlen
  refine ⟨?_, ?_, ?_, ?_⟩
  · rw [htrace]
    simp [isAddVuln]
    rw [p1, hinfo, hvuln]
  · rw [htrace]
    simp [isPrintLevel]
    rw [p2, hinfo]
  · rw [htrace]
    simp [isPrintLevel]
    rw [p3, hvuln]
  · rw [htrace]
    simp [isPrintLevel]
    rw [p4]
    omega

/-- A full cipher section: the section head plus seven records, one INFO,
one MEDIUM, six OK overall. -/
def rFull : List TesterRecord :=
  [⟨"cipherlist_NULL", "OK", "not offered"⟩,
   ⟨"cipherlist_aNULL", "OK", "not offered"⟩,
   ⟨"cipherlist_EXPORT", "OK", "not offered"⟩,
   ⟨"cipherlist_LOW", "MEDIUM", "offered"⟩,
   ⟨"cipherlist_3DES_IDEA", "INFO", "offered"⟩,
   ⟨"cipherlist_OBSOLETED", "OK", "not offered"⟩,
   ⟨"cipherlist_STRONG_NOFS", "OK", "offered"⟩,
   ⟨"cipherlist_STRONG_FS", "OK", "offered"⟩]

theorem claim_C1_witness :
    ((orchestrator_run (ct_env rFull) ["ct"]).filter isAddVuln).length = 2 ∧
    ((orchestrator_run (ct_env rFull) ["ct"]).filter (isPrintLevel "WARNING")).length = 1 ∧
    ((orchestrator_run (ct_env rFull) ["ct"]).filter (isPrintLevel "VULN")).length = 1 ∧
    ((orchestrator_run (ct_env rFull) ["ct"]).filter (isPrintLevel "OK")).length = 6 :=
  claim_C1 rFull (by decide) (by decide) (by decide) (by decide)

/-- Claim C2: no exception escapes the worker boundary except the fatal
path (SystemExit): the load failures become ERROR lines, a missing run
entry point becomes a WARNING line, an exception inside the module body is
printed into the captured output, and the orchestrator trace always runs to
its final status event. -/
theorem claim_C2 (load : LoadOutcome) (b : RunBehavior) (name m : String)
    (env : String → LoadOutcome) (tasks : List String) :
    ((run_single_module load name).2 = none ∨
      (run_single_module load name).2 = some PyExn.sysExit) ∧
    (run_single_module (.raises (.fnf m)) name).1 =
      [.printLine "ERROR" ("Module " ++ name ++ " not found")] ∧
    (run_single_module (.raises (.exc m)) name).1 =
      [.printLine "ERROR" ("Error running module " ++ name ++ ": " ++ m)] ∧
    (run_single_module (.ok false b) name).1 =
      [.printLine "WARNING" ("Module " ++ name ++ " does not have run function")] ∧
    Event.printLine "TEXT" m ∈
      (run_single_module (.ok true ⟨b.events, some (.exc m)⟩) name).1 ∧
    (orchestrator_run env tasks).getLast? = some (.setStatus "finished") := by
  refine ⟨?_, rfl, rfl, rfl, ?_, run_trace_last env tasks⟩
  · cases load with
    | ok hasRun b' =>
        cases hasRun
        · exact Or.inl rfl
        · rcases hexn : b'.exn with _ | e
          · exact Or.inl (by simp [run_single_module, hexn])
          · cases e with
            | exc m' => exact Or.inl (by simp [run_single_module, hexn])
            | fnf m' => exact Or.inl (by simp [run_single_module, hexn])
            | sysExit => exact Or.inr (by simp [run_single_module, hexn])
    | raises e =>
        cases e with
        | exc m' => exact Or.inl rfl
        | fnf m' => exact Or.inl rfl
        | sysExit => exact Or.inr rfl
  · simp [run_single_module]

/-- Claim C4: the trace of a run ends with the terminal status event, that
event occurs exactly once, and no status event occurs among the task events
preceding it: the aggregator finishes exactly once, after every task. -/
theorem claim_C4 (r : List TesterRecord) (tasks : List String) :
    ((orchestrator_run (ct_env r) tasks).filter isSetStatus).length = 1 ∧
    (orchestrator_run (ct_env r) tasks).getLast? = some (.setStatus "finished") ∧
    (orchestrator_run (ct_env r) tasks).dropLast.filter isSetStatus = [] := by
  refine ⟨?_, run_trace_last _ _, ?_⟩
  · unfold orchestrator_run
    rw [List.filter_append, tasks_no_setStatus]
    rfl
  · unfold orchestrator_run
    rw [List.dropLast_concat]
    exact tasks_no_setStatus r tasks

/-- Claim C8: describe returns the module's own label when __TESTLABEL__
is supplied, and the generated default, Test for followed by the uppercased
module name, when it is absent. -/
theorem claim_C8 (l : String) (name : String) :
    describe ⟨some l⟩ name = l ∧
    describe ⟨none⟩ name = "Test for " ++ name.toUpper :=
  ⟨rfl, rfl⟩

/-- Claim C7 invariant: in every pool state reachable under bound B, at
most B module executions are running. -/
theorem claim_C7 (B : Nat) (tasks : List String) (s : PoolState)
    (h : PoolReach B (initPool tasks) s) : s.running.length ≤ B := by
  induction h with
  | refl => simp [initPool]
  | step hreach hstep ih =>
      cases hstep with
      | start n p hpend hlt => simpa using hlt
      | finish n l1 l2 hrun =>
          rw [hrun] at ih
          simp only [List.length_append, List.length_cons] at ih ⊢
          omega

theorem claim_C7_witness :
    (PoolState.running ⟨[], ["ct"], []⟩).length ≤ threads_default :=
  claim_C7 threads_default ["ct"] ⟨[], ["ct"], []⟩
    (PoolReach.step PoolReach.refl
      (PoolStep.start (initPool ["ct"]) "ct" [] rfl (by decide)))

/-- Minimal cipher-section input: the section head alone. -/
def rSample : List TesterRecord := [⟨"cipherlist_NULL", "OK", "not offered"⟩]

/-- Counterexample to claim C3: a task list naming ct twice is scheduled
as-is by PtSSL.run (line 61 applies no deduplication), so the ct module
executes twice in the same run: its TITLE banner appears twice in the
trace. -/
theorem claim_C3_counterexample :
    (scheduled_tasks (some ["ct", "ct"])).count "ct" = 2 ∧
    ((orchestrator_run (ct_env rSample) (scheduled_tasks (some ["ct", "ct"]))).filter
      (isPrintLevel "TITLE")).length = 2 := by
  exact ⟨by decide, by decide⟩

/-- Claim C3 as amended: duplicates are not collapsed; run schedules the
task list exactly as given (when non-empty), and each occurrence of ct in
the list yields one execution of the ct module. -/
theorem claim_C3_amended (ts : List String) (h : ts ≠ []) (r : List TesterRecord) :
    scheduled_tasks (some ts) = ts ∧
    ((orchestrator_run (ct_env r) ts).filter (isPrintLevel "TITLE")).length
      = ts.count "ct" := by
  constructor
  · simp [scheduled_tasks, h]
  · unfold orchestrator_run
    rw [List.filter_append, List.length_append, tasks_title_count]
    simp [isPrintLevel]

theorem claim_C3_amended_witness :
    scheduled_tasks (some ["ct", "ct"]) = ["ct", "ct"] ∧
    ((orchestrator_run (ct_env rSample) ["ct", "ct"]).filter
      (isPrintLevel "TITLE")).length = ["ct", "ct"].count "ct" :=
  claim_C3_amended ["ct", "ct"] (by decide) rSample

/-- Counterexample to claim C6: the not-found report for a task whose name
resolves to no module is printed at ERROR level (ptssl.py line 153), not at
warning level: the task yields zero warning-level records and one
error-level record. -/
theorem claim_C6_counterexample :
    ((run_single_module (.raises (.fnf "missing")) "missingmod").1.filter
      (isPrintLevel "WARNING")).length = 0 ∧
    ((run_single_module (.raises (.fnf "missing")) "missingmod").1.filter
      (isPrintLevel "ERROR")).length = 1 := by
  exact ⟨by decide, by decide⟩

/-- Claim C6 as amended: a task whose name resolves to no loadable module
produces exactly one error-level record, the run continues to its final
status, and the findings recorded by the other tasks are unchanged by the
presence of the failing task. -/
theorem claim_C6_amended (env : String → LoadOutcome) (t1 t2 : List String)
    (bad m : String) (hbad : env bad = .raises (.fnf m)) :
    worker env bad = [.printLine "ERROR" ("Module " ++ bad ++ " not found")] ∧
    (orchestrator_run env (t1 ++ bad :: t2)).filter isAddVuln =
      (orchestrator_run env (t1 ++ t2)).filter isAddVuln ∧
    (orchestrator_run env (t1 ++ bad :: t2)).getLast? =
      some (.setStatus "finished") := by
  have hw : worker env bad =
      [.printLine "ERROR" ("Module " ++ bad ++ " not found")] := by
    unfold worker
    rw [hbad]
    rfl
  refine ⟨hw, ?_, run_trace_last env _⟩
  simp [orchestrator_run, List.flatMap_append, List.flatMap_cons,
    List.filter_append, hw, isAddVuln]

theorem claim_C6_amended_witness :
    worker (ct_env rSample) "missingmod" =
      [.printLine "ERROR" ("Module " ++ "missingmod" ++ " not found")] ∧
    (orchestrator_run (ct_env rSample) (["ct"] ++ "missingmod" :: [])).filter isAddVuln =
      (orchestrator_run (ct_env rSample) (["ct"] ++ [])).filter isAddVuln ∧
    (orchestrator_run (ct_env rSample) (["ct"] ++ "missingmod" :: [])).getLast? =
      some (.setStatus "finished") :=
  claim_C6_amended (ct_env rSample) ["ct"] [] "missingmod"
    ("no module file " ++ "missingmod") (by decide)

end Ptssl
